import Mathlib

/-!
Verification of the AssessMate recommendation core against its specification.

The development shallowly embeds the Python sources:
  * `utils.py`   — `format_results` and its per-score sanitization,
  * `app.py`     — the `/recommend` handler, its score-sanitization loop and
                   the deep sanitizer `ensure_json_serializable`,
  * `search.py`  — `FAISSSearchEngine` (`build_index`, `save_index`,
                   `load_index`, `search`).

Python floats are modelled as exact rationals plus the IEEE non-finite
values; Python/JSON values as an inductive `PyVal`; the filesystem used by
`save_index`/`load_index` as an association list from paths to artifacts;
raised Python exceptions as `Except PyErr`.  The FAISS library itself is an
external dependency whose sources are not part of the repository, so its
flat inner-product index is modelled from the specification (see
`faissTopK`).
-/

/-- Model of a Python float value: either a finite value (modelled exactly
as a rational, standing for the real number the float denotes) or one of
the IEEE non-finite values `nan`, `inf`, `-inf`. -/
inductive PyFloat where
  | finite (q : ℚ)
  | nan
  | inf
  | ninf
deriving DecidableEq, Repr

/-- Result of `math.isnan(f) or math.isinf(f)` on a Python float. -/
def PyFloat.nonFinite : PyFloat → Bool
  | .finite _ => false
  | .nan => true
  | .inf => true
  | .ninf => true

/-- Model of a Python value as it flows through the result formatter and
the deep sanitizer: `None`, `bool`, `int`, `float`, `str`, `list`, `dict`
(string keys — every structure the formatter builds uses string keys), and
`obj s` standing for a value of any other Python type whose `str()`
representation is the string `s`. -/
inductive PyVal where
  | none
  | bool (b : Bool)
  | int (n : ℤ)
  | float (f : PyFloat)
  | str (s : String)
  | list (xs : List PyVal)
  | dict (kvs : List (String × PyVal))
  | obj (s : String)

/-- Python dict key lookup on a modelled value (`None` when the value is
not a dict or the key is absent). -/
def PyVal.getKey : PyVal → String → Option PyVal
  | .dict kvs, k => (kvs.find? (fun kv => kv.1 == k)).map Prod.snd
  | _, _ => Option.none

/-- Whether a modelled dict value has the given key. -/
def PyVal.hasKey (v : PyVal) (k : String) : Bool := (v.getKey k).isSome

mutual

/-- Shallow embedding of `ensure_json_serializable` from `app.py`
(lines 131–146): dicts recurse over values, lists recurse over elements,
`int`/`bool`/`str`/`None` pass through, non-finite floats become `0.0`,
finite floats pass through, and anything else is coerced with `str`. -/
def ensure_json_serializable : PyVal → PyVal
  | .dict kvs => .dict (ejsKvs kvs)
  | .list xs => .list (ejsList xs)
  | .none => .none
  | .bool b => .bool b
  | .int n => .int n
  | .str s => .str s
  | .float f => if f.nonFinite then .float (.finite 0) else .float f
  | .obj s => .str s

/-- The list comprehension in `ensure_json_serializable` for list inputs. -/
def ejsList : List PyVal → List PyVal
  | [] => []
  | x :: xs => ensure_json_serializable x :: ejsList xs

/-- The dict comprehension in `ensure_json_serializable` for dict inputs:
values are sanitized recursively, keys are left untouched. -/
def ejsKvs : List (String × PyVal) → List (String × PyVal)
  | [] => []
  | (k, v) :: tl => (k, ensure_json_serializable v) :: ejsKvs tl

end

/-- Python `isinstance(x, (int, float))` on a modelled value; note that a
Python `bool` is an instance of `int`. -/
def pyIsNumber : PyVal → Bool
  | .bool _ => true
  | .int _ => true
  | .float _ => true
  | _ => false

/-- `pd.isna` on the scalar values reachable in `format_results` (`None`
and `nan` are the only na-like values among them). -/
def pdIsna : PyVal → Bool
  | .none => true
  | .float .nan => true
  | _ => false

/-- `np.isinf` on the numeric values reachable in `format_results`. -/
def npIsinf : PyVal → Bool
  | .float .inf => true
  | .float .ninf => true
  | _ => false

/-- Python `float(x)` on a value that passed the `isinstance(x, (int,
float))` guard (booleans convert to `1.0`/`0.0`; the final catch-all arm
is unreachable on the guarded paths where this is used). -/
def pyFloatOf : PyVal → PyFloat
  | .bool b => .finite (if b then 1 else 0)
  | .int n => .finite (n : ℚ)
  | .float f => f
  | _ => .finite 0

/-- The `math.isnan(score) or math.isinf(score)` test from the score
sanitization loop in `app.py` (`math.isnan`/`math.isinf` are false on
ints and bools). -/
def mathNonFinite : PyVal → Bool
  | .float f => f.nonFinite
  | _ => false

/-- Whether a modelled value is a finite Python number (numeric and
neither NaN nor infinite). -/
def pyFiniteNumber (s : PyVal) : Bool := pyIsNumber s && !mathNonFinite s

/-- Shallow embedding of one iteration of the score sanitization loop in
`app.py` (lines 111–125).  Returns the sanitized score together with a
flag recording whether a warning was logged for this score. -/
def sanitizeScoreApp (score : PyVal) : PyVal × Bool :=
  if pyIsNumber score then
    if mathNonFinite score then (.float (.finite 0), true)
    else (.float (pyFloatOf score), false)
  else (.float (.finite 0), true)

/-- Shallow embedding of the per-score sanitization inside
`format_results` in `utils.py` (lines 79–83): `not isinstance(score,
(int, float)) or pd.isna(score) or np.isinf(score)` falls back to `0.0`,
otherwise `float(score)` is used. -/
def sanitizeScoreFR (score : PyVal) : PyVal :=
  if !pyIsNumber score || pdIsna score || npIsinf score then .float (.finite 0)
  else .float (pyFloatOf score)

/-- One metadata row of the assessment DataFrame, with the columns
`format_results` reads. -/
structure Row where
  name : PyVal
  url : PyVal
  description : PyVal
  duration : PyVal
  remote : PyVal
  adaptive : PyVal
  test_type : PyVal

/-- `df.iloc[idx]` on a modelled DataFrame: a non-negative index must be
below the row count, a negative index counts from the end (as pandas
positional indexing does); out-of-bounds access returns `none`, standing
for the raised `IndexError`. -/
def iloc (df : List Row) (idx : ℤ) : Option Row :=
  if 0 ≤ idx then df[idx.toNat]?
  else if -(df.length : ℤ) ≤ idx then df[df.length - (-idx).toNat]?
  else Option.none

/-- The result record built for one `(index, score)` pair in
`format_results` (`i` is the 0-based loop counter, so `rank` is `i+1`). -/
def formatRow (i : Nat) (score : PyVal) (row : Row) : PyVal :=
  .dict [("rank", .int (i + 1)),
         ("similarity_score", sanitizeScoreFR score),
         ("name", row.name),
         ("url", row.url),
         ("description", row.description),
         ("duration", row.duration),
         ("remote", row.remote),
         ("adaptive", row.adaptive),
         ("test_type", row.test_type)]

/-- The loop of `format_results` over `enumerate(zip(indices, scores))`.
`Option.none` models an exception escaping the loop body (a failed
`df.iloc` lookup), which aborts the whole loop — the rows accumulated so
far are discarded by the surrounding `except` handler. -/
def formatRows : List (ℤ × PyVal) → List Row → Nat → Option (List PyVal)
  | [], _, _ => some []
  | (idx, score) :: rest, df, i =>
    match iloc df idx with
    | Option.none => Option.none
    | some row =>
      match formatRows rest df (i + 1) with
      | Option.none => Option.none
      | some tl => some (formatRow i score row :: tl)

/-- The message of the exception raised by an out-of-bounds positional
lookup, as reported by `str(e)` in the `except` handler of
`format_results` (used as the representative failure message of the
loop). -/
def ilocErrorMessage : String := "single positional indexer is out-of-bounds"

/-- Shallow embedding of `format_results` from `utils.py` (lines 59–103):
on success a dict with the single key `"results"`, on an exception inside
the loop a dict with the single key `"error"` (and, notably, no
`"results"` key). -/
def format_results (indices : List ℤ) (scores : List PyVal) (df : List Row) : PyVal :=
  match formatRows (indices.zip scores) df 0 with
  | some rs => .dict [("results", .list rs)]
  | Option.none => .dict [("error", .str ilocErrorMessage)]

/-- The list bound to the `"results"` key of a formatted response (empty
when the key is absent or not a list). -/
def resultsOf (v : PyVal) : List PyVal :=
  match v.getKey "results" with
  | some (.list rs) => rs
  | _ => []

/-- Inner product of two embedding vectors (`faiss.IndexFlatIP` scores). -/
def dot (a b : List ℚ) : ℚ := (List.zipWith (· * ·) a b).sum

/-- The ranking order on `(position, score)` pairs: higher score first,
ties broken by lower original position. -/
def rankLeB (a b : Nat × ℚ) : Bool := decide (b.2 < a.2 ∨ (a.2 = b.2 ∧ a.1 ≤ b.1))

/-- Insertion into a list sorted by `rankLeB`. -/
def insertRanked (a : Nat × ℚ) : List (Nat × ℚ) → List (Nat × ℚ)
  | [] => [a]
  | b :: l => if rankLeB a b then a :: b :: l else b :: insertRanked a l

/-- Insertion sort by `rankLeB` (executable model of the exact-search
ranking). -/
def sortRanked : List (Nat × ℚ) → List (Nat × ℚ)
  | [] => []
  | a :: l => insertRanked a (sortRanked l)

/-- Modelled from the spec: the FAISS `IndexFlatIP` search (the FAISS
library is an external dependency, its sources are not in the
repository).  Per the specification of `query`: exact brute-force
inner-product scoring of every stored vector, results ordered by
descending score with ties broken by ascending original position, and the
first `min(k, N)` of them returned. -/
def faissTopK (vecs : List (List ℚ)) (q : List ℚ) (k : Nat) : List (Nat × ℚ) :=
  (sortRanked ((vecs.map (dot q)).enum)).take k

/-- Model of a `faiss.IndexFlatIP` instance: its dimension and the stored
vectors in insertion order. -/
structure IndexFlat where
  d : Nat
  vecs : List (List ℚ)

/-- A raised Python exception, as observed by callers. -/
inductive PyErr where
  | valueError (msg : String)
  | fileNotFound (msg : String)
  | attributeError
  | assertionError
deriving DecidableEq, Repr

/-- The `str(e)` rendering of a modelled exception. -/
def PyErr.message : PyErr → String
  | .valueError m => m
  | .fileNotFound m => m
  | .attributeError => "AttributeError"
  | .assertionError => "AssertionError"

/-- Whether an `Except` value is a normal return (no exception). -/
def exceptIsOk : Except PyErr α → Bool
  | .ok _ => true
  | .error _ => false

/-- Model of a `FAISSSearchEngine` instance from `search.py`: the
`dimension`, `index` and `df` attributes (`none` models Python `None`). -/
structure Engine where
  dimension : Nat
  index : Option IndexFlat
  df : Option (List Row)

/-- Shallow embedding of `FAISSSearchEngine.build_index` (`search.py`
lines 27–49).  `np.array(...).astype(float32)` on a ragged list and
`faiss` adding vectors of the wrong width both raise, modelled as a
single error; otherwise the engine stores the vectors and the
DataFrame. -/
def Engine.build_index (e : Engine) (embeddings : List (List ℚ)) (df : List Row) :
    Except PyErr Engine :=
  if embeddings.all (fun v => v.length = e.dimension) then
    .ok { e with index := some ⟨e.dimension, embeddings⟩, df := some df }
  else .error .assertionError

/-- Shallow embedding of the module-level `build_faiss_index`
(`search.py` lines 134–155): the dimension is taken from the first
embedding, an empty list raises `ValueError`. -/
def build_faiss_index (embedding_list : List (List ℚ)) (df : List Row) :
    Except PyErr Engine :=
  match embedding_list with
  | [] => .error (.valueError "Empty embedding list")
  | v :: _ => (Engine.mk v.length Option.none Option.none).build_index embedding_list df

/-- Shallow embedding of `FAISSSearchEngine.search` (`search.py` lines
102–132): raises `ValueError` when no index is present; the FAISS call
asserts that the query width equals the index dimension; otherwise it
returns the positions and scores of `faissTopK` as two parallel lists
(the shape of the `(indices_list, distances_list)` return value). -/
def Engine.search (e : Engine) (query_embedding : List ℚ) (k : Nat) :
    Except PyErr (List Nat × List ℚ) :=
  match e.index with
  | Option.none => .error (.valueError "No index has been built or loaded")
  | some idx =>
    if query_embedding.length = idx.d then
      .ok ((faissTopK idx.vecs query_embedding k).map Prod.fst,
           (faissTopK idx.vecs query_embedding k).map Prod.snd)
    else .error .assertionError

/-- A persisted artifact: either a serialized FAISS index blob (with the
vectors it holds, `faiss.write_index`/`read_index` being an exact
round-trip) or a CSV metadata table. -/
inductive Artifact where
  | faissBlob (idx : IndexFlat)
  | csvTable (df : List Row)

/-- The filesystem visible to `save_index`/`load_index`: an association
list from paths to artifacts; the most recent write for a path shadows
older entries. -/
def FS := List (String × Artifact)

/-- Writing a file: the new content shadows any previous content. -/
def fsWrite (fs : FS) (p : String) (a : Artifact) : FS := (p, a) :: fs

/-- Reading a file (`none` = the path does not exist). -/
def fsRead (fs : FS) (p : String) : Option Artifact :=
  (List.find? (fun kv => kv.1 == p) fs).map Prod.snd

/-- Shallow embedding of `FAISSSearchEngine.save_index` (`search.py`
lines 51–73).  With no built index it logs an error and returns normally
without writing anything; otherwise it writes the index blob and then the
CSV.  The returned list carries the error messages logged by the call.
Writing `self.df` when it is `None` raises (`to_csv` on `None`). -/
def Engine.save_index (e : Engine) (fs : FS) (index_path df_path : String) :
    Except PyErr (FS × List String) :=
  match e.index with
  | Option.none => .ok (fs, ["Cannot save index: No index has been built"])
  | some idx =>
    match e.df with
    | Option.none => .error .attributeError
    | some d => .ok (fsWrite (fsWrite fs index_path (.faissBlob idx)) df_path (.csvTable d), [])

/-- Shallow embedding of `FAISSSearchEngine.load_index` (`search.py`
lines 75–100): raises `FileNotFoundError` when either path is absent;
otherwise reads the index, reads the DataFrame and takes the dimension
from the loaded index.  Reading a file of the wrong format raises. -/
def Engine.load_index (_self : Engine) (fs : FS) (index_path df_path : String) :
    Except PyErr Engine :=
  match fsRead fs index_path, fsRead fs df_path with
  | Option.none, _ =>
    .error (.fileNotFound "Index file or DataFrame file does not exist")
  | _, Option.none =>
    .error (.fileNotFound "Index file or DataFrame file does not exist")
  | some (.faissBlob idx), some (.csvTable d) =>
    .ok { dimension := idx.d, index := some idx, df := some d }
  | some _, some _ => .error (.valueError "could not read artifact")

/-- Python `str.isspace`-style whitespace, as stripped by `str.strip()`
(the ASCII whitespace characters). -/
def pyIsSpace (c : Char) : Bool :=
  c == ' ' || c == '\t' || c == '\n' || c == '\r' || c == '\x0b' || c == '\x0c'

/-- Python `query.strip()` on the character list of a string. -/
def pyStrip (s : String) : List Char :=
  ((s.toList.dropWhile pyIsSpace).reverse.dropWhile pyIsSpace).reverse

/-- One access to an external collaborator made while serving a request:
a call to the embedding provider or a search of the similarity index. -/
inductive AccessEvent where
  | embedCall
  | indexSearch
deriving DecidableEq, Repr

/-- The value a request handler produces: a raised `HTTPException`
(rendered by the framework as a JSON object with a single `detail` key)
or a JSON body. -/
inductive Response where
  | httpExc (status : Nat) (detail : String)
  | body (v : PyVal)

/-- The JSON document the caller of the HTTP interface receives. -/
def responseJSON : Response → PyVal
  | .httpExc _ detail => .dict [("detail", .str detail)]
  | .body v => v

/-- Shallow embedding of the `/recommend` handler from `app.py` (lines
80–194), for the default `enhance=False` path (the enhancer is an
external collaborator).  `embed` models `embedding_generator
.generate_embedding`, `search_engine` the module-level engine.  The
second component records the accesses to the embedding provider and the
index.  The `json.dumps` double-check of the real handler cannot fail on
sanitized modelled values, so its fallback branch is not reachable here;
an exception escaping the search is rendered by the final `except` as
`{"error": str(e), "results": []}`. -/
def recommend (embed : String → List ℚ) (search_engine : Option Engine)
    (query : String) (k : Nat) : Response × List AccessEvent :=
  if (pyStrip query).isEmpty then
    (.httpExc 400 "Query cannot be empty", [])
  else
    match search_engine with
    | Option.none => (.httpExc 503 "Search engine not initialized", [])
    | some e =>
      let query_embedding := embed query
      match e.search query_embedding k with
      | .error err =>
        (.body (.dict [("error", .str err.message), ("results", .list [])]),
         [.embedCall, .indexSearch])
      | .ok (indices, scores) =>
        let sanitized_scores := scores.map (fun q => (sanitizeScoreApp (.float (.finite q))).1)
        let results := format_results (indices.map (fun n => (n : ℤ))) sanitized_scores
          (e.df.getD [])
        (.body (ensure_json_serializable results), [.embedCall, .indexSearch])

/-- A concrete metadata row (from the sample catalog in the repository's
own test fixture at the bottom of `search.py`). -/
def rowA : Row :=
  ⟨.str "Assessment 1", .str "https://www.shl.com/1",
   .str "A cognitive ability test measuring reasoning skills",
   .str "30 min", .str "Yes", .str "Yes", .str "Cognitive"⟩

/-- A second concrete metadata row from the same fixture. -/
def rowB : Row :=
  ⟨.str "Assessment 2", .str "https://www.shl.com/2",
   .str "A personality assessment measuring work style preferences",
   .str "45 min", .str "Yes", .str "No", .str "Personality"⟩

/-- A third concrete metadata row from the same fixture. -/
def rowC : Row :=
  ⟨.str "Assessment 3", .str "https://www.shl.com/3",
   .str "A situational judgment test for leadership roles",
   .str "60 min", .str "No", .str "No", .str "Situational"⟩

/-- A filesystem holding a desynchronized artifact pair: the index blob
stores one vector while the metadata table has two rows. -/
def fsMismatched : FS :=
  [("shl_faiss_index.bin", .faissBlob ⟨2, [[1, 0]]⟩),
   ("shl_assessments.csv", .csvTable [rowA, rowB])]

/-! ## Helper lemmas -/

theorem ejsList_eq_map : ∀ xs : List PyVal, ejsList xs = xs.map ensure_json_serializable
  | [] => rfl
  | x :: xs => by simp [ejsList, ejsList_eq_map xs]

theorem ejsKvs_eq_map : ∀ kvs : List (String × PyVal),
    ejsKvs kvs = kvs.map (fun kv => (kv.1, ensure_json_serializable kv.2))
  | [] => rfl
  | (k, v) :: tl => by simp [ejsKvs, ejsKvs_eq_map tl]

mutual

theorem ejs_idem_aux : ∀ v, ensure_json_serializable (ensure_json_serializable v) =
    ensure_json_serializable v
  | .dict kvs => by simp [ensure_json_serializable, ejsKvs_idem_aux kvs]
  | .list xs => by simp [ensure_json_serializable, ejsList_idem_aux xs]
  | .none => rfl
  | .bool _ => rfl
  | .int _ => rfl
  | .str _ => rfl
  | .obj _ => rfl
  | .float f => by
    cases f <;> simp [ensure_json_serializable, PyFloat.nonFinite]

theorem ejsList_idem_aux : ∀ xs, ejsList (ejsList xs) = ejsList xs
  | [] => rfl
  | x :: xs => by simp [ejsList, ejs_idem_aux x, ejsList_idem_aux xs]

theorem ejsKvs_idem_aux : ∀ kvs, ejsKvs (ejsKvs kvs) = ejsKvs kvs
  | [] => rfl
  | (k, v) :: tl => by simp [ejsKvs, ejs_idem_aux v, ejsKvs_idem_aux tl]

end

/-! ## C8 — the deep sanitizer, case by case -/

/-- C8: `ensure_json_serializable` recurses key-wise through dicts and
element-wise through lists, passes booleans, strings, integers and `None`
through unchanged, turns each non-finite float into `0.0`, passes finite
floats through, and coerces a value of any other type to its string
representation. -/
theorem claim_C8_deep_sanitization :
    (∀ kvs, ensure_json_serializable (.dict kvs) =
       .dict (kvs.map (fun kv => (kv.1, ensure_json_serializable kv.2)))) ∧
    (∀ xs, ensure_json_serializable (.list xs) = .list (xs.map ensure_json_serializable)) ∧
    (∀ b, ensure_json_serializable (.bool b) = .bool b) ∧
    (∀ s, ensure_json_serializable (.str s) = .str s) ∧
    (∀ n, ensure_json_serializable (.int n) = .int n) ∧
    (ensure_json_serializable .none = .none) ∧
    (ensure_json_serializable (.float .nan) = .float (.finite 0)) ∧
    (ensure_json_serializable (.float .inf) = .float (.finite 0)) ∧
    (ensure_json_serializable (.float .ninf) = .float (.finite 0)) ∧
    (∀ qv : ℚ, ensure_json_serializable (.float (.finite qv)) = .float (.finite qv)) ∧
    (∀ s, ensure_json_serializable (.obj s) = .str s) := by
  refine ⟨fun kvs => ?_, fun xs => ?_, fun _ => rfl, fun _ => rfl, fun _ => rfl,
    rfl, rfl, rfl, rfl, fun _ => rfl, fun _ => rfl⟩
  · simp [ensure_json_serializable, ejsKvs_eq_map]
  · simp [ensure_json_serializable, ejsList_eq_map]

/-! ## C10 — idempotence of the deep sanitizer -/

/-- C10: `ensure_json_serializable` is idempotent — applying it twice
yields the same value as applying it once. -/
theorem claim_C10_idempotent :
    ∀ v, ensure_json_serializable (ensure_json_serializable v) = ensure_json_serializable v :=
  ejs_idem_aux

/-! ## C5 — save with no built index returns silently -/

/-- C5 (counterexample): calling `save_index` on an engine whose index was
never built does not raise: it returns normally, writes nothing to the
filesystem, and only logs an error message.  The claim that it fails with
a `NotBuilt` error is therefore false. -/
theorem claim_C5_counterexample :
    (Engine.mk 768 Option.none Option.none).save_index [] "i.bin" "d.csv" =
      .ok ([], ["Cannot save index: No index has been built"]) ∧
    exceptIsOk ((Engine.mk 768 Option.none Option.none).save_index [] "i.bin" "d.csv") = true :=
  ⟨by with_unfolding_all rfl, by with_unfolding_all rfl⟩

/-- C5 (amended): when no index has been built, `save_index` logs the
error "Cannot save index: No index has been built" and returns normally,
leaving the filesystem unchanged; it does not raise and does not write. -/
theorem claim_C5_amended (e : Engine) (fs : FS) (ip dp : String)
    (h : e.index = Option.none) :
    e.save_index fs ip dp = .ok (fs, ["Cannot save index: No index has been built"]) := by
  unfold Engine.save_index
  rw [h]

theorem claim_C5_witness :
    ((Engine.mk 5 Option.none (some [])).index = Option.none) ∧
    (Engine.mk 5 Option.none (some [])).save_index [("x", .faissBlob ⟨1, []⟩)] "a" "b" =
      .ok ([("x", .faissBlob ⟨1, []⟩)], ["Cannot save index: No index has been built"]) :=
  ⟨rfl, claim_C5_amended _ _ _ _ rfl⟩

/-! ## C9 — empty or whitespace-only query -/

theorem pyStrip_eq_nil_of_all_space {s : String} (h : s.toList.all pyIsSpace = true) :
    pyStrip s = [] := by
  have h1 : List.dropWhile pyIsSpace s.data = [] :=
    List.dropWhile_eq_nil_iff.mpr
      (by simpa [List.all_eq_true, String.toList] using h)
  simp [pyStrip, h1]

/-- C9: for a query consisting only of whitespace characters (hence also
the empty query), `recommend` fails with the 400 "Query cannot be empty"
error — the model of `InvalidQuery` — and the returned access trace is
empty: neither the embedding provider nor the similarity index is
touched, whatever embedding function and engine state are in place. -/
theorem claim_C9_invalid_query (embed : String → List ℚ) (st : Option Engine)
    (query : String) (k : Nat) (hws : query.toList.all pyIsSpace = true) :
    recommend embed st query k = (.httpExc 400 "Query cannot be empty", []) := by
  simp [recommend, pyStrip_eq_nil_of_all_space hws]

theorem claim_C9_witness :
    ("  ".toList.all pyIsSpace = true) ∧
    recommend (fun _ => [1]) (some (Engine.mk 1 (some ⟨1, [[1]]⟩) (some []))) "  " 5 =
      (.httpExc 400 "Query cannot be empty", []) :=
  ⟨by decide, claim_C9_invalid_query _ _ _ _ (by decide)⟩

/-! ## C4 — load failure modes -/

/-- C4 (counterexample): loading an artifact pair whose vector count (1)
differs from the metadata row count (2) does not fail: `load_index`
performs no consistency check between the two artifacts, so the claimed
`ArtifactCorrupt` failure does not exist in the code. -/
theorem claim_C4_counterexample :
    (Engine.mk 768 Option.none Option.none).load_index fsMismatched
        "shl_faiss_index.bin" "shl_assessments.csv" =
      .ok (Engine.mk 2 (some ⟨2, [[1, 0]]⟩) (some [rowA, rowB])) ∧
    (IndexFlat.mk 2 [[1, 0]]).vecs.length = 1 ∧
    [rowA, rowB].length = 2 ∧
    exceptIsOk ((Engine.mk 768 Option.none Option.none).load_index fsMismatched
        "shl_faiss_index.bin" "shl_assessments.csv") = true :=
  ⟨by with_unfolding_all rfl, rfl, rfl, by with_unfolding_all rfl⟩

/-- C4 (amended): `load_index` fails with `FileNotFoundError` — the model
of `ArtifactMissing` — whenever either path is absent; but it performs no
consistency check between the two artifacts: whenever both paths hold
artifacts of the expected formats, the load succeeds, whatever the vector
count of the index blob and the row count of the metadata table. -/
theorem claim_C4_amended :
    (∀ (e : Engine) (fs : FS) (ip dp : String),
       fsRead fs ip = Option.none ∨ fsRead fs dp = Option.none →
       e.load_index fs ip dp =
         .error (.fileNotFound "Index file or DataFrame file does not exist")) ∧
    (∀ (e : Engine) (fs : FS) (ip dp : String) (idx : IndexFlat) (d : List Row),
       fsRead fs ip = some (.faissBlob idx) → fsRead fs dp = some (.csvTable d) →
       e.load_index fs ip dp = .ok (Engine.mk idx.d (some idx) (some d))) := by
  constructor
  · intro e fs ip dp h
    unfold Engine.load_index
    rcases h with h | h
    · rw [h]
      rcases fsRead fs dp with _ | a
      · rfl
      · cases a <;> rfl
    · rw [h]
      rcases fsRead fs ip with _ | a
      · rfl
      · cases a <;> rfl
  · intro e fs ip dp idx d h1 h2
    unfold Engine.load_index
    rw [h1, h2]

theorem claim_C4_witness :
    (fsRead [] "missing.bin" = Option.none ∨ fsRead [] "missing.csv" = Option.none) ∧
    (Engine.mk 768 Option.none Option.none).load_index [] "missing.bin" "missing.csv" =
      .error (.fileNotFound "Index file or DataFrame file does not exist") ∧
    fsRead fsMismatched "shl_faiss_index.bin" = some (.faissBlob ⟨2, [[1, 0]]⟩) ∧
    fsRead fsMismatched "shl_assessments.csv" = some (.csvTable [rowA, rowB]) ∧
    (Engine.mk 0 Option.none Option.none).load_index fsMismatched
        "shl_faiss_index.bin" "shl_assessments.csv" =
      .ok (Engine.mk 2 (some ⟨2, [[1, 0]]⟩) (some [rowA, rowB])) :=
  ⟨Or.inl (by with_unfolding_all rfl),
   claim_C4_amended.1 _ _ _ _ (Or.inl (by with_unfolding_all rfl)),
   by with_unfolding_all rfl,
   by with_unfolding_all rfl,
   claim_C4_amended.2 _ _ _ _ _ _ (by with_unfolding_all rfl) (by with_unfolding_all rfl)⟩

/-! ## C7 — formatter behaviour on an out-of-range position -/

theorem formatRows_none_of_bad : ∀ (pairs : List (ℤ × PyVal)) (df : List Row) (i : Nat),
    (∃ p ∈ pairs, iloc df p.1 = Option.none) → formatRows pairs df i = Option.none
  | [], _, _, h => by
    rcases h with ⟨p, hp, _⟩
    cases hp
  | (idx, s) :: rest, df, i, h => by
    rcases h with ⟨p, hp, hbad⟩
    rcases List.mem_cons.mp hp with rfl | hmem
    · simp only [formatRows]
      rw [hbad]
    · unfold formatRows
      cases hrow : iloc df idx with
      | none => rfl
      | some row => rw [formatRows_none_of_bad rest df (i + 1) ⟨p, hmem, hbad⟩]

/-- C7 (counterexample): with positions `[0, 5]` against a one-row table,
the position `0` is valid, yet `format_results` returns only
`{"error": ...}` — the valid row is not returned, contradicting the claim
that only the offending row is excluded and the remaining results are
still returned. -/
theorem claim_C7_counterexample :
    format_results [0, 5] [.float (.finite (1 / 2)), .float (.finite (1 / 4))] [rowA] =
      .dict [("error", .str ilocErrorMessage)] ∧
    PyVal.getKey (format_results [0, 5]
        [.float (.finite (1 / 2)), .float (.finite (1 / 4))] [rowA]) "results" =
      Option.none :=
  ⟨by with_unfolding_all rfl, by with_unfolding_all rfl⟩

/-- C7 (amended): whenever any consumed `(position, score)` pair has a
position that is out of range for the metadata table, the exception
aborts the whole formatting loop: `format_results` returns a dict with
only an `"error"` key and no results at all, rather than excluding just
the offending row. -/
theorem claim_C7_amended (indices : List ℤ) (scores : List PyVal) (df : List Row)
    (h : ∃ p ∈ indices.zip scores, iloc df p.1 = Option.none) :
    format_results indices scores df = .dict [("error", .str ilocErrorMessage)] := by
  unfold format_results
  rw [formatRows_none_of_bad _ _ 0 h]

theorem claim_C7_witness :
    (∃ p ∈ ([(5 : ℤ)].zip [PyVal.float (.finite 1)]), iloc [rowA] p.1 = Option.none) ∧
    format_results [(5 : ℤ)] [PyVal.float (.finite 1)] [rowA] =
      .dict [("error", .str ilocErrorMessage)] :=
  ⟨⟨(5, PyVal.float (.finite 1)), List.mem_cons_self _ _, by with_unfolding_all rfl⟩,
   claim_C7_amended _ _ _
     ⟨(5, PyVal.float (.finite 1)), List.mem_cons_self _ _, by with_unfolding_all rfl⟩⟩

/-! ## C2 — sanitized scores are finite -/

theorem sanitizeScoreFR_finite : ∀ s : PyVal, ∃ qv : ℚ, sanitizeScoreFR s = .float (.finite qv)
  | .none => ⟨0, rfl⟩
  | .bool b => ⟨if b then 1 else 0, by cases b <;> rfl⟩
  | .int n => ⟨(n : ℚ), rfl⟩
  | .float .nan => ⟨0, rfl⟩
  | .float .inf => ⟨0, rfl⟩
  | .float .ninf => ⟨0, rfl⟩
  | .float (.finite q) => ⟨q, rfl⟩
  | .str _ => ⟨0, rfl⟩
  | .list _ => ⟨0, rfl⟩
  | .dict _ => ⟨0, rfl⟩
  | .obj _ => ⟨0, rfl⟩

theorem getKey_formatRow_score (i : Nat) (s : PyVal) (row : Row) :
    (formatRow i s row).getKey "similarity_score" = some (sanitizeScoreFR s) := rfl

theorem formatRows_mem : ∀ (pairs : List (ℤ × PyVal)) (df : List Row) (i : Nat)
    (rs : List PyVal), formatRows pairs df i = some rs →
    ∀ r ∈ rs, ∃ j s row, r = formatRow j s row
  | [], _, _, rs, h => by
    cases h
    intro r hr
    cases hr
  | (idx, s) :: rest, df, i, rs, h => by
    unfold formatRows at h
    cases hrow : iloc df idx with
    | none => rw [hrow] at h; cases h
    | some row =>
      rw [hrow] at h
      cases htl : formatRows rest df (i + 1) with
      | none => rw [htl] at h; cases h
      | some tl =>
        rw [htl] at h
        cases h
        intro r hr
        rcases List.mem_cons.mp hr with rfl | hmem
        · exact ⟨i, s, row, rfl⟩
        · exact formatRows_mem rest df (i + 1) tl htl r hmem

theorem resultsOf_results_dict (rs : List PyVal) :
    resultsOf (.dict [("results", .list rs)]) = rs := rfl

theorem resultsOf_error_dict (m : String) :
    resultsOf (.dict [("error", .str m)]) = [] := rfl

/-- C2: the recommendation pipeline never lets a non-finite score reach
the caller.  First, the sanitization loop of the handler replaces every
raw score that is not a finite number (NaN, infinite, or not numeric at
all) with `0.0` and logs a warning for it.  Second, for every list of raw
scores pushed through that loop and then through `format_results`, every
`similarity_score` field of the returned results is a finite float. -/
theorem claim_C2_sanitized_scores_finite :
    (∀ s : PyVal, pyFiniteNumber s = false →
       sanitizeScoreApp s = (.float (.finite 0), true)) ∧
    (∀ (raw : List PyVal) (indices : List ℤ) (df : List Row) (r : PyVal),
       r ∈ resultsOf (format_results indices
         (raw.map (fun s => (sanitizeScoreApp s).1)) df) →
       ∃ qv : ℚ, r.getKey "similarity_score" = some (.float (.finite qv))) := by
  constructor
  · intro s h
    cases s with
    | float f =>
      cases f with
      | finite q => simp [pyFiniteNumber, pyIsNumber, mathNonFinite, PyFloat.nonFinite] at h
      | nan => rfl
      | inf => rfl
      | ninf => rfl
    | bool b => simp [pyFiniteNumber, pyIsNumber, mathNonFinite] at h
    | int n => simp [pyFiniteNumber, pyIsNumber, mathNonFinite] at h
    | none => rfl
    | str _ => rfl
    | list _ => rfl
    | dict _ => rfl
    | obj _ => rfl
  · intro raw indices df r hr
    unfold format_results at hr
    cases hrows : formatRows (indices.zip (raw.map (fun s => (sanitizeScoreApp s).1))) df 0 with
    | none =>
      rw [hrows] at hr
      rw [resultsOf_error_dict] at hr
      cases hr
    | some rs =>
      rw [hrows] at hr
      rw [resultsOf_results_dict] at hr
      obtain ⟨j, s, row, rfl⟩ := formatRows_mem _ _ _ _ hrows r hr
      rw [getKey_formatRow_score]
      obtain ⟨qv, hq⟩ := sanitizeScoreFR_finite s
      exact ⟨qv, by rw [hq]⟩

theorem claim_C2_witness :
    (pyFiniteNumber (.float .nan) = false ∧
     sanitizeScoreApp (.float .nan) = (.float (.finite 0), true)) ∧
    (formatRow 0 (.float (.finite 0)) rowA ∈
       resultsOf (format_results [0]
         ([PyVal.float .inf].map (fun s => (sanitizeScoreApp s).1)) [rowA]) ∧
     ∃ qv : ℚ, (formatRow 0 (.float (.finite 0)) rowA).getKey "similarity_score" =
       some (.float (.finite qv))) := by
  refine ⟨⟨rfl, claim_C2_sanitized_scores_finite.1 _ rfl⟩, ?_, ?_⟩
  · have hres : resultsOf (format_results [0]
        ([PyVal.float .inf].map (fun s => (sanitizeScoreApp s).1)) [rowA]) =
        [formatRow 0 (.float (.finite 0)) rowA] := by with_unfolding_all rfl
    rw [hres]
    exact List.mem_cons_self _ _
  · exact claim_C2_sanitized_scores_finite.2 [PyVal.float .inf] [0] [rowA] _
      (by
        have hres : resultsOf (format_results [0]
            ([PyVal.float .inf].map (fun s => (sanitizeScoreApp s).1)) [rowA]) =
            [formatRow 0 (.float (.finite 0)) rowA] := by with_unfolding_all rfl
        rw [hres]
        exact List.mem_cons_self _ _)

/-! ## C6 — presence of the results key -/

theorem format_results_shape (indices : List ℤ) (scores : List PyVal) (df : List Row) :
    (∃ rs, format_results indices scores df = .dict [("results", .list rs)]) ∨
    format_results indices scores df = .dict [("error", .str ilocErrorMessage)] := by
  unfold format_results
  cases h : formatRows (indices.zip scores) df 0 with
  | none => right; rfl
  | some rs => left; exact ⟨rs, rfl⟩

theorem ejs_results_dict (rs : List PyVal) :
    ensure_json_serializable (.dict [("results", .list rs)]) =
      .dict [("results", .list (ejsList rs))] := rfl

theorem ejs_error_dict (m : String) :
    ensure_json_serializable (.dict [("error", .str m)]) = .dict [("error", .str m)] := rfl

theorem hasKey_results_head (v : PyVal) :
    PyVal.hasKey (.dict [("results", v)]) "results" = true := rfl

theorem hasKey_results_second (m : String) :
    PyVal.hasKey (.dict [("error", .str m), ("results", .list [])]) "results" = true := rfl

/-- C6 (counterexample): run the whole `recommend` pipeline against an
engine whose index holds two vectors while its metadata table has a
single row (a state reachable because `load_index` never cross-checks the
two artifacts).  The search returns position 1, the formatter's lookup of
row 1 fails, and the value returned by `recommend` is
`{"error": ...}` — with no `"results"` key at all, contradicting the
claim that every returned value contains one. -/
theorem claim_C6_counterexample :
    (recommend (fun _ => [1])
        (some (Engine.mk 1 (some ⟨1, [[2], [1]]⟩) (some [rowA]))) "job" 2).1 =
      .body (.dict [("error", .str ilocErrorMessage)]) ∧
    PyVal.hasKey (.dict [("error", .str ilocErrorMessage)]) "results" = false :=
  ⟨by with_unfolding_all rfl, by with_unfolding_all rfl⟩

/-- C6 (amended): every value `recommend` returns is either an HTTP error
(empty query, engine not initialized — rendered by the framework as a
`detail` object without a `results` key), or the formatter-failure body
`{"error": ...}` which has no `results` key, or a body that does contain
a `results` key (the success path and the handler's catch-all exception
path). -/
theorem claim_C6_amended (embed : String → List ℚ) (st : Option Engine)
    (query : String) (k : Nat) :
    (∃ s d, (recommend embed st query k).1 = .httpExc s d) ∨
    (recommend embed st query k).1 = .body (.dict [("error", .str ilocErrorMessage)]) ∨
    (∃ v, (recommend embed st query k).1 = .body v ∧ v.hasKey "results" = true) := by
  by_cases hq : (pyStrip query).isEmpty = true
  · left
    exact ⟨400, "Query cannot be empty", by simp [recommend, hq]⟩
  · cases st with
    | none =>
      left
      exact ⟨503, "Search engine not initialized", by simp [recommend, hq]⟩
    | some e =>
      cases hs : e.search (embed query) k with
      | error err =>
        right; right
        refine ⟨.dict [("error", .str err.message), ("results", .list [])], ?_, ?_⟩
        · simp [recommend, hq, hs]
        · exact hasKey_results_second _
      | ok p =>
        obtain ⟨indices, scores⟩ := p
        have hbody : (recommend embed (some e) query k).1 =
            .body (ensure_json_serializable (format_results
              (indices.map (fun n => (n : ℤ)))
              (scores.map (fun q => (sanitizeScoreApp (.float (.finite q))).1))
              (e.df.getD []))) := by
          simp [recommend, hq, hs]
        rcases format_results_shape (indices.map (fun n => (n : ℤ)))
            (scores.map (fun q => (sanitizeScoreApp (.float (.finite q))).1))
            (e.df.getD []) with ⟨rs, hr⟩ | hr
        · right; right
          refine ⟨.dict [("results", .list (ejsList rs))], ?_, hasKey_results_head _⟩
          rw [hbody, hr, ejs_results_dict]
        · right; left
          rw [hbody, hr, ejs_error_dict]

/-! ## C3 — save/load round-trip -/

theorem fsRead_write_same (fs : FS) (p : String) (a : Artifact) :
    fsRead (fsWrite fs p a) p = some a := by
  simp [fsRead, fsWrite, List.find?]

theorem fsRead_write_other (fs : FS) (p p2 : String) (a : Artifact) (h : p ≠ p2) :
    fsRead (fsWrite fs p2 a) p = fsRead fs p := by
  have hne : (p2 == p) = false := by
    simp only [beq_eq_false_iff_ne]
    exact fun hc => h hc.symm
  simp [fsRead, fsWrite, List.find?, hne]

/-- C3: saving a built index and its metadata table and loading them back
(into any engine, here a freshly constructed one) yields an engine whose
`search` agrees with the original engine on every probe vector and every
k — the same positions and the same scores.  Persistence is modelled as
exact serialization: `faiss.write_index`/`read_index` round-trip the
stored vectors exactly, and the metadata artifact round-trips its rows. -/
theorem claim_C3_save_load_roundtrip (e : Engine) (idx : IndexFlat) (d : List Row)
    (fs : FS) (ip dp : String) (hip : ip ≠ dp)
    (hidx : e.index = some idx) (hdf : e.df = some d) :
    ∃ fs2 log e2, e.save_index fs ip dp = .ok (fs2, log) ∧
      (Engine.mk 768 Option.none Option.none).load_index fs2 ip dp = .ok e2 ∧
      e2.index = e.index ∧
      ∀ (probe : List ℚ) (k : Nat), e2.search probe k = e.search probe k := by
  refine ⟨fsWrite (fsWrite fs ip (.faissBlob idx)) dp (.csvTable d), [],
    Engine.mk idx.d (some idx) (some d), ?_, ?_, ?_, ?_⟩
  · unfold Engine.save_index
    rw [hidx, hdf]
  · unfold Engine.load_index
    have h1 : fsRead (fsWrite (fsWrite fs ip (.faissBlob idx)) dp (.csvTable d)) dp =
        some (.csvTable d) := fsRead_write_same _ _ _
    have h2 : fsRead (fsWrite (fsWrite fs ip (.faissBlob idx)) dp (.csvTable d)) ip =
        some (.faissBlob idx) := by
      rw [fsRead_write_other _ _ _ _ hip]
      exact fsRead_write_same _ _ _
    rw [h1, h2]
  · rw [hidx]
  · intro probe k
    show Engine.search (Engine.mk idx.d (some idx) (some d)) probe k = e.search probe k
    unfold Engine.search
    rw [hidx]

theorem claim_C3_witness :
    ("index.bin" ≠ "table.csv") ∧
    ((Engine.mk 2 (some ⟨2, [[1, 0], [0, 1]]⟩) (some [rowA, rowB])).index =
      some ⟨2, [[1, 0], [0, 1]]⟩) ∧
    ((Engine.mk 2 (some ⟨2, [[1, 0], [0, 1]]⟩) (some [rowA, rowB])).df = some [rowA, rowB]) ∧
    (∃ fs2 log e2,
      (Engine.mk 2 (some ⟨2, [[1, 0], [0, 1]]⟩) (some [rowA, rowB])).save_index []
          "index.bin" "table.csv" = .ok (fs2, log) ∧
      (Engine.mk 768 Option.none Option.none).load_index fs2 "index.bin" "table.csv" =
        .ok e2 ∧
      e2.index = (Engine.mk 2 (some ⟨2, [[1, 0], [0, 1]]⟩) (some [rowA, rowB])).index ∧
      ∀ (probe : List ℚ) (k : Nat),
        e2.search probe k =
          (Engine.mk 2 (some ⟨2, [[1, 0], [0, 1]]⟩) (some [rowA, rowB])).search probe k) :=
  ⟨by decide, rfl, rfl,
   claim_C3_save_load_roundtrip _ ⟨2, [[1, 0], [0, 1]]⟩ [rowA, rowB] [] _ _
     (by decide) rfl rfl⟩

/-! ## C1 — query result length, ordering and tie-breaking -/

theorem rankLeB_total (a b : Nat × ℚ) : rankLeB a b = true ∨ rankLeB b a = true := by
  unfold rankLeB
  simp only [decide_eq_true_eq]
  rcases lt_trichotomy a.2 b.2 with h | h | h
  · right; left; exact h
  · rcases Nat.le_total a.1 b.1 with hn | hn
    · left; right; exact ⟨h, hn⟩
    · right; right; exact ⟨h.symm, hn⟩
  · left; left; exact h

theorem rankLeB_trans (a b c : Nat × ℚ) (h1 : rankLeB a b = true)
    (h2 : rankLeB b c = true) : rankLeB a c = true := by
  unfold rankLeB at h1 h2 ⊢
  simp only [decide_eq_true_eq] at h1 h2 ⊢
  rcases h1 with h1 | ⟨h1e, h1n⟩
  · rcases h2 with h2 | ⟨h2e, h2n⟩
    · left; exact h2.trans h1
    · left; exact h2e ▸ h1
  · rcases h2 with h2 | ⟨h2e, h2n⟩
    · left; rw [h1e]; exact h2
    · right; exact ⟨h1e.trans h2e, h1n.trans h2n⟩

theorem perm_insertRanked (a : Nat × ℚ) : ∀ l, List.Perm (insertRanked a l) (a :: l)
  | [] => List.Perm.refl _
  | b :: l => by
    cases h : rankLeB a b with
    | true => simp [insertRanked, h]
    | false =>
      simp only [insertRanked, h, Bool.false_eq_true, if_false]
      exact ((perm_insertRanked a l).cons b).trans (List.Perm.swap a b l)

theorem sortRanked_perm : ∀ l, List.Perm (sortRanked l) l
  | [] => List.Perm.refl _
  | a :: l => (perm_insertRanked a (sortRanked l)).trans ((sortRanked_perm l).cons a)

theorem pairwise_insertRanked (a : Nat × ℚ) (l : List (Nat × ℚ))
    (h : l.Pairwise (fun x y => rankLeB x y = true)) :
    (insertRanked a l).Pairwise (fun x y => rankLeB x y = true) := by
  induction l with
  | nil => simp [insertRanked]
  | cons b l ih =>
    rcases List.pairwise_cons.mp h with ⟨hb, hl⟩
    cases hab : rankLeB a b with
    | true =>
      simp only [insertRanked, hab, if_true]
      refine List.pairwise_cons.mpr ⟨?_, h⟩
      intro x hx
      rcases List.mem_cons.mp hx with rfl | hxl
      · exact hab
      · exact rankLeB_trans _ _ _ hab (hb x hxl)
    | false =>
      simp only [insertRanked, hab, Bool.false_eq_true, if_false]
      have hba : rankLeB b a = true := by
        rcases rankLeB_total a b with hc | hc
        · rw [hab] at hc; cases hc
        · exact hc
      refine List.pairwise_cons.mpr ⟨?_, ih hl⟩
      intro x hx
      have hx2 : x ∈ a :: l := (perm_insertRanked a l).subset hx
      rcases List.mem_cons.mp hx2 with rfl | hxl
      · exact hba
      · exact hb x hxl

theorem pairwise_sortRanked : ∀ l, (sortRanked l).Pairwise (fun x y => rankLeB x y = true)
  | [] => List.Pairwise.nil
  | a :: l => pairwise_insertRanked a _ (pairwise_sortRanked l)

theorem faissTopK_length (vecs : List (List ℚ)) (q : List ℚ) (k : Nat) :
    (faissTopK vecs q k).length = min k vecs.length := by
  unfold faissTopK
  rw [List.length_take, (sortRanked_perm _).length_eq, List.enum_length, List.length_map]

theorem faissTopK_pairwise (vecs : List (List ℚ)) (q : List ℚ) (k : Nat) :
    (faissTopK vecs q k).Pairwise (fun a b => b.2 < a.2 ∨ (a.2 = b.2 ∧ a.1 < b.1)) := by
  have hsorted := pairwise_sortRanked ((vecs.map (dot q)).enum)
  have hnd : ((sortRanked ((vecs.map (dot q)).enum)).map Prod.fst).Nodup := by
    have hperm : List.Perm ((sortRanked ((vecs.map (dot q)).enum)).map Prod.fst)
        (((vecs.map (dot q)).enum).map Prod.fst) := (sortRanked_perm _).map _
    rw [hperm.nodup_iff]
    exact List.nodup_enum_map_fst _
  have hne : (sortRanked ((vecs.map (dot q)).enum)).Pairwise (fun a b => a.1 ≠ b.1) :=
    List.pairwise_map.mp hnd
  have hcomb := hsorted.and hne
  have hstrict : (sortRanked ((vecs.map (dot q)).enum)).Pairwise
      (fun a b => b.2 < a.2 ∨ (a.2 = b.2 ∧ a.1 < b.1)) := by
    refine hcomb.imp ?_
    intro a b hab
    rcases hab with ⟨hle, hne2⟩
    have hle2 := of_decide_eq_true hle
    rcases hle2 with h | ⟨he, hn⟩
    · left; exact h
    · right; exact ⟨he, lt_of_le_of_ne hn hne2⟩
  exact hstrict.sublist (List.take_sublist _ _)

theorem faissTopK_mem (vecs : List (List ℚ)) (q : List ℚ) (k : Nat) :
    ∀ p ∈ faissTopK vecs q k, ∃ v, vecs[p.1]? = some v ∧ p.2 = dot q v := by
  intro p hp
  have h1 : p ∈ sortRanked ((vecs.map (dot q)).enum) :=
    (List.take_sublist _ _).subset hp
  have h2 : p ∈ (vecs.map (dot q)).enum := ((sortRanked_perm _).mem_iff).mp h1
  obtain ⟨i, x⟩ := p
  have h3 : (vecs.map (dot q))[i]? = some x := by
    simpa using List.mk_mem_enum_iff_getElem?.mp h2
  rw [List.getElem?_map] at h3
  rcases hv : vecs[i]? with _ | v
  · rw [hv] at h3; cases h3
  · rw [hv] at h3
    simp only [Option.map_some'] at h3
    exact ⟨v, rfl, (Option.some.inj h3).symm⟩

theorem zip_map_fst_snd_self : ∀ l : List (Nat × ℚ),
    (l.map Prod.fst).zip (l.map Prod.snd) = l
  | [] => rfl
  | (a, b) :: l => by simp [zip_map_fst_snd_self l]

theorem engine_search_some (e : Engine) (idx : IndexFlat) (q : List ℚ) (k : Nat)
    (h : e.index = some idx) (hd : q.length = idx.d) :
    e.search q k = .ok ((faissTopK idx.vecs q k).map Prod.fst,
      (faissTopK idx.vecs q k).map Prod.snd) := by
  unfold Engine.search
  rw [h]
  simp [hd]

/-- C1: for every index built from a batch of embeddings, every query
vector of the index dimension and every positive `k`, `search` succeeds
and the sequence of `(position, score)` pairs it returns (the pointwise
zip of the two returned lists) equals `faissTopK` — so two equal queries
get identical results (determinism) — has length exactly `min k N`, is
ordered by strictly descending score with ties broken by strictly
ascending original position (stability), and each returned pair scores
the stored vector at its position with the inner product against the
query. -/
theorem claim_C1_query_ranking (e0 : Engine) (embs : List (List ℚ)) (d : List Row)
    (e : Engine) (q : List ℚ) (k : Nat)
    (hbuild : e0.build_index embs d = .ok e)
    (hdim : q.length = e0.dimension) (_hk : 0 < k) :
    ∃ is ss, e.search q k = .ok (is, ss) ∧
      is.zip ss = faissTopK embs q k ∧
      (is.zip ss).length = min k embs.length ∧
      (is.zip ss).Pairwise (fun a b => b.2 < a.2 ∨ (a.2 = b.2 ∧ a.1 < b.1)) ∧
      ∀ p ∈ is.zip ss, ∃ v, embs[p.1]? = some v ∧ p.2 = dot q v := by
  unfold Engine.build_index at hbuild
  split at hbuild
  · injection hbuild with he
    subst he
    refine ⟨(faissTopK embs q k).map Prod.fst, (faissTopK embs q k).map Prod.snd,
      engine_search_some _ ⟨e0.dimension, embs⟩ q k rfl hdim, ?_, ?_, ?_, ?_⟩
    · exact zip_map_fst_snd_self _
    · rw [zip_map_fst_snd_self]
      exact faissTopK_length embs q k
    · rw [zip_map_fst_snd_self]
      exact faissTopK_pairwise embs q k
    · rw [zip_map_fst_snd_self]
      exact faissTopK_mem embs q k
  · simp at hbuild

theorem claim_C1_witness :
    ((Engine.mk 1 Option.none Option.none).build_index [[2], [1], [2]] [rowA, rowB, rowC] =
      .ok (Engine.mk 1 (some ⟨1, [[2], [1], [2]]⟩) (some [rowA, rowB, rowC]))) ∧
    ([(1 : ℚ)].length = (Engine.mk 1 Option.none Option.none).dimension) ∧
    (0 < 2) ∧
    (∃ is ss,
      (Engine.mk 1 (some ⟨1, [[2], [1], [2]]⟩) (some [rowA, rowB, rowC])).search [1] 2 =
        .ok (is, ss) ∧
      is.zip ss = faissTopK [[2], [1], [2]] [1] 2 ∧
      (is.zip ss).length = min 2 [[2], [1], [2]].length ∧
      (is.zip ss).Pairwise (fun a b => b.2 < a.2 ∨ (a.2 = b.2 ∧ a.1 < b.1)) ∧
      ∀ p ∈ is.zip ss, ∃ v, [[2], [1], [2]][p.1]? = some v ∧ p.2 = dot [1] v) :=
  ⟨by with_unfolding_all rfl, rfl, by decide,
   claim_C1_query_ranking (Engine.mk 1 Option.none Option.none) [[2], [1], [2]]
     [rowA, rowB, rowC] _ [1] 2 (by with_unfolding_all rfl) rfl (by decide)⟩
